import Mathlib

/-!
Verification development for the score-prediction pipeline of the torobot
repository (src/helpers/score_helper.py and its caller src/cogs/ml_cog.py).

The embedding conventions:
* a pandas / numpy cell after `pd.to_numeric(..., errors="coerce")` and the
  `±inf → NaN` replacement is modelled as `Val := Option ℚ`, where `none`
  stands for NaN (the "unknown" sentinel) and `some q` for a finite number;
* a Python `dict` with string keys is modelled as an insertion-ordered
  association list `List (String × α)`; assignment `d[k] = v` updates the
  first occurrence of `k` in place and otherwise appends (`dictSet`), and
  `d.get(k, default)` is `dictGet?`/`dictGetV`;
* a pandas DataFrame is a list of column names together with rows whose
  cells are positionally aligned with the column-name list.
-/

/-- A numeric cell: `none` models NaN / missing ("unknown"). -/
abbrev Val := Option ℚ

/-- Python dict assignment `d[k] = v`: replace the first binding of `k`
in place, otherwise append the new binding (insertion order preserved). -/
def dictSet {α : Type} : List (String × α) → String → α → List (String × α)
  | [], k, v => [(k, v)]
  | p :: t, k, v => if p.1 == k then (k, v) :: t else p :: dictSet t k v

/-- Python dict lookup `d.get(k)`: the value at the first binding of `k`. -/
def dictGet? {α : Type} (d : List (String × α)) (k : String) : Option α :=
  (d.find? (fun p => p.1 == k)).map Prod.snd

/-- Python dict lookup `d.get(k, nan)` for NaN-defaulted stat dictionaries. -/
def dictGetV (d : List (String × Val)) (k : String) : Val :=
  (dictGet? d k).getD none

/-!
RollingStatsCalculator (`calculate_live_rolling_stats_for_log`,
src/helpers/score_helper.py lines 264-318).
-/

/-- Constant `NBA_API_ROLLING_WINDOW = 10` (score_helper.py line 36). -/
def NBA_API_ROLLING_WINDOW : Nat := 10

/-- The 18 base keys of the returned stats dict (lines 268-274), in source order. -/
def expected_output_base_keys : List String :=
  ["PTS_Roll10", "AST_Roll10", "BLK_Roll10", "DREB_Roll10",
   "FG3A_Roll10", "FG3M_Roll10", "FG3_PCT_Roll10",
   "FGA_Roll10", "FGM_Roll10", "FG_PCT_Roll10",
   "FTA_Roll10", "FTM_Roll10", "FT_PCT_Roll10",
   "OREB_Roll10", "PF_Roll10", "REB_Roll10", "STL_Roll10", "TOV_Roll10"]

/-- Columns the game log must supply (line 281). -/
def required_cols_from_log : List String :=
  ["PTS", "AST", "BLK", "DREB", "FG3A", "FG3M", "FGA", "FGM", "FTA", "FTM",
   "OREB", "PF", "REB", "STL", "TOV"]

/-- Stats aggregated with a rolling mean (line 292). -/
def mean_stat_bases : List String :=
  ["PTS", "AST", "BLK", "DREB", "OREB", "PF", "REB", "STL", "TOV"]

/-- Stats aggregated with a rolling sum (line 301). -/
def sum_stat_bases : List String := ["FG3A", "FG3M", "FGA", "FGM", "FTA", "FTM"]

/-- A team game log frame: the columns present and, per game, the `GAME_DATE`
(already parsed to a comparable integer) and the cells aligned with `cols`
after numeric coercion (`none` = coercion failure / NaN). -/
structure GameLogDF where
  cols : List String
  rows : List (Int × List Val)

/-- Cell access `row[col]` by positional alignment with the column list. -/
def cellVal (cols : List String) (r : List Val) (c : String) : Val :=
  match cols.findIdx? (fun c2 => c2 == c) with
  | some i => (r.get? i).getD none
  | none => none

/-- Ascending insertion into a date-sorted list (models
`sort_values('GAME_DATE', ascending=True)`; the claims only involve logs
with strictly increasing dates, for which every correct sort agrees). -/
def insertByDate (r : Int × List Val) : List (Int × List Val) → List (Int × List Val)
  | [] => [r]
  | s :: t => if s.1 ≤ r.1 then s :: insertByDate r t else r :: s :: t

/-- Sort the log rows ascending by `GAME_DATE`. -/
def sortByDate (rows : List (Int × List Val)) : List (Int × List Val) :=
  rows.foldr insertByDate []

/-- The chronological series of one stat column of a log. -/
def gameCol (g : GameLogDF) (c : String) : List Val :=
  (sortByDate g.rows).map (fun r => cellVal g.cols r.2 c)

/-- The last row of `series.rolling(window=w, closed="left", min_periods=1).agg(...)`
(the only row the source consumes, via `.iloc[-1]`): the window at the final
row `i = n-1` covers indices `[i-w, i-1]`, excluding the final row itself;
NaN cells are skipped by the aggregation, and fewer than `min_periods = 1`
observations yield NaN. -/
def lastRolling (agg : List ℚ → ℚ) (xs : List Val) (w : Nat) : Val :=
  let n := xs.length
  let vs := ((xs.take (n - 1)).drop (n - 1 - w)).filterMap id
  if vs.isEmpty then none else some (agg vs)

/-- Rolling-mean aggregation over the observed (non-NaN) window cells. -/
def meanAgg (l : List ℚ) : ℚ := l.sum / l.length

/-- Rolling-sum aggregation over the observed (non-NaN) window cells. -/
def sumAgg (l : List ℚ) : ℚ := l.sum

/-- Percentage derivation (lines 314-316): `makes / attempts` only when both
are non-NaN and attempts are positive, else exactly `0.0`. -/
def derivePct (m a : Val) : Val :=
  match a, m with
  | some av, some mv => if 0 < av then some (mv / av) else some (0 : ℚ)
  | _, _ => some (0 : ℚ)

/-- Function `calculate_live_rolling_stats_for_log` (lines 264-318). The `None` /
empty / missing-column guards return the NaN-initialized dict; otherwise the
log is sorted ascending by date, mean-type stats take the left-closed rolling
mean at the last row, made/attempted stats take the left-closed rolling sum
at the last row, and the three percentages are derived from those sums.
The source's `if not rolling_means.empty` / `if not rolling_sums.empty`
guards always hold on the nonempty frame reaching them and are not repeated. -/
def calculate_live_rolling_stats_for_log (game_log_df : Option GameLogDF) :
    List (String × Val) :=
  let live0 : List (String × Val) := expected_output_base_keys.map (fun k => (k, none))
  match game_log_df with
  | none => live0
  | some g =>
    if g.rows.length < 1 then live0
    else if ¬ (required_cols_from_log.all (fun c => g.cols.contains c)) then live0
    else
      let stats1 :=
        if mean_stat_bases.all (fun c => g.cols.contains c) then
          mean_stat_bases.foldl
            (fun d c => dictSet d (c ++ "_Roll10")
              (lastRolling meanAgg (gameCol g c) NBA_API_ROLLING_WINDOW)) live0
        else live0
      if sum_stat_bases.all (fun c => g.cols.contains c) then
        let stats2 :=
          sum_stat_bases.foldl
            (fun d c => dictSet d (c ++ "_Roll10")
              (lastRolling sumAgg (gameCol g c) NBA_API_ROLLING_WINDOW)) stats1
        let s3m := dictGetV stats2 "FG3M_Roll10"
        let s3a := dictGetV stats2 "FG3A_Roll10"
        let sgm := dictGetV stats2 "FGM_Roll10"
        let sga := dictGetV stats2 "FGA_Roll10"
        let stm := dictGetV stats2 "FTM_Roll10"
        let sta := dictGetV stats2 "FTA_Roll10"
        let d1 := dictSet stats2 "FG3_PCT_Roll10" (derivePct s3m s3a)
        let d2 := dictSet d1 "FG_PCT_Roll10" (derivePct sgm sga)
        dictSet d2 "FT_PCT_Roll10" (derivePct stm sta)
      else stats1

/-- The explicit form of the stats dict produced on the fully-guarded path of
`calculate_live_rolling_stats_for_log`: every write of the source's loops hits
a key already present in the NaN-initialized dict, so the dict stays in the
source's initialization order with the computed aggregates filled in. -/
def mainStatsForm (g : GameLogDF) : List (String × Val) :=
  let M := fun c => lastRolling meanAgg (gameCol g c) NBA_API_ROLLING_WINDOW
  let S := fun c => lastRolling sumAgg (gameCol g c) NBA_API_ROLLING_WINDOW
  [("PTS_Roll10", M "PTS"), ("AST_Roll10", M "AST"), ("BLK_Roll10", M "BLK"),
   ("DREB_Roll10", M "DREB"),
   ("FG3A_Roll10", S "FG3A"), ("FG3M_Roll10", S "FG3M"),
   ("FG3_PCT_Roll10", derivePct (S "FG3M") (S "FG3A")),
   ("FGA_Roll10", S "FGA"), ("FGM_Roll10", S "FGM"),
   ("FG_PCT_Roll10", derivePct (S "FGM") (S "FGA")),
   ("FTA_Roll10", S "FTA"), ("FTM_Roll10", S "FTM"),
   ("FT_PCT_Roll10", derivePct (S "FTM") (S "FTA")),
   ("OREB_Roll10", M "OREB"), ("PF_Roll10", M "PF"), ("REB_Roll10", M "REB"),
   ("STL_Roll10", M "STL"), ("TOV_Roll10", M "TOV")]

/-- A game row whose fifteen stat cells all hold the same value `x`. -/
def statRow (x : ℚ) : List Val := required_cols_from_log.map (fun _ => some x)

/-- A chronological log of exactly three games (dates 0 < 1 < 2) whose stat
cells hold `a`, `b`, `c` respectively. -/
def threeGameLog (a b c : ℚ) : GameLogDF :=
  { cols := required_cols_from_log,
    rows := [(0, statRow a), (1, statRow b), (2, statRow c)] }

/-- A two-game log in which every counting stat, including every attempt, is 0. -/
def zeroAttemptLog : GameLogDF :=
  { cols := required_cols_from_log, rows := [(0, statRow 0), (1, statRow 0)] }

/-!
ModelTrainerEvaluator / ModelSelector / readiness (`train_all_models`,
src/helpers/score_helper.py lines 142-211), the module-level `models_store`
(lines 47-51) and the Predictor (`predict_scores_with_model`, lines 380-404).

A trained regressor is an opaque library object; the stores are polymorphic
in the regressor type `R`. Fitting and evaluating one model family is a
library call whose outcome we model as a parameter: `some (home, away, er)`
when the family's fit+evaluate succeeds with artifact pair `(home, away)`
and holdout errors `er`, and `none` when it throws (the source's
`except Exception` path for that family).
-/

/-- Per-family holdout evaluation entry (line 189). -/
structure EvalResult where
  home_mae : ℚ
  away_mae : ℚ
  average_mae : ℚ
deriving DecidableEq

/-- The nominal `FEATURE_COLS` list (lines 39-43), 54 names. -/
def FEATURE_COLS : List String :=
  ["Away_AST_Roll10_PreGame", "Away_BLK_Roll10_PreGame", "Away_DREB_Roll10_PreGame",
   "Away_FG3A_Roll10_PreGame", "Away_FG3M_Roll10_PreGame", "Away_FG3_PCT_Roll10_PreGame",
   "Away_FGA_Roll10_PreGame", "Away_FGM_Roll10_PreGame", "Away_FG_PCT_Roll10_PreGame",
   "Away_FTA_Roll10_PreGame", "Away_FTM_Roll10_PreGame", "Away_FT_PCT_Roll10_PreGame",
   "Away_OREB_Roll10_PreGame", "Away_PF_Roll10_PreGame", "Away_PTS_Roll10_PreGame",
   "Away_REB_Roll10_PreGame", "Away_STL_Roll10_PreGame", "Away_TOV_Roll10_PreGame",
   "Home_AST_Roll10_PreGame", "Home_BLK_Roll10_PreGame", "Home_DREB_Roll10_PreGame",
   "Home_FG3A_Roll10_PreGame", "Home_FG3M_Roll10_PreGame", "Home_FG3_PCT_Roll10_PreGame",
   "Home_FGA_Roll10_PreGame", "Home_FGM_Roll10_PreGame", "Home_FG_PCT_Roll10_PreGame",
   "Home_FTA_Roll10_PreGame", "Home_FTM_Roll10_PreGame", "Home_FT_PCT_Roll10_PreGame",
   "Home_OREB_Roll10_PreGame", "Home_PF_Roll10_PreGame", "Home_PTS_Roll10_PreGame",
   "Home_REB_Roll10_PreGame", "Home_STL_Roll10_PreGame", "Home_TOV_Roll10_PreGame",
   "Diff_AST_Roll10_PreGame", "Diff_BLK_Roll10_PreGame", "Diff_DREB_Roll10_PreGame",
   "Diff_FG3A_Roll10_PreGame", "Diff_FG3M_Roll10_PreGame", "Diff_FG3_PCT_Roll10_PreGame",
   "Diff_FGA_Roll10_PreGame", "Diff_FGM_Roll10_PreGame", "Diff_FG_PCT_Roll10_PreGame",
   "Diff_FTA_Roll10_PreGame", "Diff_FTM_Roll10_PreGame", "Diff_FT_PCT_Roll10_PreGame",
   "Diff_OREB_Roll10_PreGame", "Diff_PF_Roll10_PreGame", "Diff_PTS_Roll10_PreGame",
   "Diff_REB_Roll10_PreGame", "Diff_STL_Roll10_PreGame", "Diff_TOV_Roll10_PreGame"]

/-- The module-level `models_store` dict (lines 47-51). `imputer` and
`scaler` hold the fitted library artifact when present (`Option Unit`
records exactly the `is not None` information every consumer reads);
`trained_models` and `evaluation` are the per-family dicts, whose values can
be Python `None` after a family failure. -/
structure ModelsStore (R : Type) where
  imputer : Option Unit
  scaler : Option Unit
  trained_models : List (String × Option (R × R))
  evaluation : List (String × Option EvalResult)
  feature_names : List String
  nba_teams_lu : List (String × Nat)
  best_model_name : Option String
  models_ready : Bool
deriving DecidableEq

/-- The store's initial value (lines 47-51): no artifacts, empty dicts,
nominal schema, no selection, not ready. -/
def init_models_store (R : Type) : ModelsStore R :=
  { imputer := none, scaler := none, trained_models := [], evaluation := [],
    feature_names := FEATURE_COLS, nba_teams_lu := [],
    best_model_name := none, models_ready := false }

/-- Best-model scan (lines 196-200): walk the evaluation dict in insertion
order keeping the entry with the strictly smallest `average_mae` seen so far
(entries that are Python `None` are skipped); `min_mae` starts at infinity,
modelled by the `none` accumulator. -/
def selectBest (evals : List (String × Option EvalResult)) : Option String :=
  (evals.foldl
    (fun (acc : Option (String × ℚ)) p =>
      match p.2 with
      | some er =>
        match acc with
        | none => some (p.1, er.average_mae)
        | some q => if er.average_mae < q.2 then some (p.1, er.average_mae) else acc
      | none => acc)
    none).map Prod.fst

/-- One configured model family and the outcome of its fit+evaluate attempt. -/
abbrev FamilyOutcome (R : Type) := String × Option (R × R × EvalResult)

/-- The per-family loop body of `train_all_models` (lines 169-193), acting on
(trained-models dict, evaluation dict, overall-success flag): on success the
artifact pair and the evaluation entry are stored for the family; on failure
both dicts record Python `None` for that family and the success flag turns
false. -/
def trainStep {R : Type}
    (acc : List (String × Option (R × R)) × List (String × Option EvalResult) × Bool)
    (o : FamilyOutcome R) :
    List (String × Option (R × R)) × List (String × Option EvalResult) × Bool :=
  match o.2 with
  | some (h, a, er) => (dictSet acc.1 o.1 (some (h, a)), dictSet acc.2.1 o.1 (some er), acc.2.2)
  | none => (dictSet acc.1 o.1 none, dictSet acc.2.1 o.1 none, false)

/-- Function `train_all_models` (lines 142-211), net effect on the store plus the
returned flag. `split_ok` is the outcome of the `train_test_split` library
call (line 149 returns `False` early, leaving the store untouched, when it
throws). The per-family loop starts from cleared dicts (lines 166-167) and
`overall_success = True`; then the best-MAE scan runs, `overall_success` is
cleared if no best model was found (line 206), and `models_ready` is
recomputed exactly as on lines 208-210. -/
def train_all_models {R : Type} (store : ModelsStore R) (split_ok : Bool)
    (outcomes : List (FamilyOutcome R)) : ModelsStore R × Bool :=
  if split_ok = false then (store, false)
  else
    let res := outcomes.foldl trainStep ([], [], true)
    let tm := res.1
    let ev := res.2.1
    let best := selectBest ev
    let overall_success := if best.isSome then res.2.2 else false
    let pair_ok : Bool := match best with
      | some b => ((dictGet? tm b).getD none).isSome
      | none => false
    let ready := overall_success && best.isSome && pair_ok
      && store.imputer.isSome && store.scaler.isSome
    ({store with trained_models := tm, evaluation := ev,
                 best_model_name := best, models_ready := ready}, ready)

/-- The valid (non-`None`) evaluation entries, as (family, average MAE) pairs
in registration order. -/
def validEvals (evals : List (String × Option EvalResult)) : List (String × ℚ) :=
  evals.filterMap (fun p => p.2.map (fun er => (p.1, er.average_mae)))

/-- Modelled from the spec words for ModelSelector: "scan all families with a
valid (non-failed) evaluation and select the one with the lowest average MAE;
on an exact tie, the earliest-registered family wins": the first valid entry
whose average MAE equals the minimum over all valid entries. -/
def selectBestSpec (evals : List (String × Option EvalResult)) : Option String :=
  let valid := validEvals evals
  match (valid.map Prod.snd).min? with
  | none => none
  | some m => (valid.find? (fun p => p.2 == m)).map Prod.fst

/-- The running strict-improvement scan over (family, MAE) pairs. -/
def runMin (q : String × ℚ) (t : List (String × ℚ)) : String × ℚ :=
  t.foldl (fun a p => if p.2 < a.2 then p else a) q

/-- The `selectBest` fold restricted to the valid pairs. -/
def selectPairs (l : List (String × ℚ)) : Option (String × ℚ) :=
  l.foldl
    (fun (acc : Option (String × ℚ)) p =>
      match acc with
      | none => some p
      | some q => if p.2 < q.2 then some p else acc)
    none

/-- The "selected family's (home, away) artifact pair exists" reading used
on line 209: `bool(models_store["trained_models"].get(best_model_name))`. -/
def selectedPairPresent {R : Type} (s : ModelsStore R) : Bool :=
  match s.best_model_name with
  | some b => ((dictGet? s.trained_models b).getD none).isSome
  | none => false

def exampleEvaluation : List (String × Option EvalResult) :=
  [("A", some ⟨8, 9, 17/2⟩), ("B", some ⟨7, 9, 79/10⟩), ("C", some ⟨8, 9, 79/10⟩)]

def storeWithArtifacts : ModelsStore Unit :=
  { init_models_store Unit with imputer := some (), scaler := some () }

def mixedOutcomes : List (FamilyOutcome Unit) :=
  [("RF", none), ("GB", some ((), (), ⟨1, 1, 1⟩))]

def threeOutcomes : List (FamilyOutcome Unit) :=
  [("RF", some ((), (), ⟨1, 1, 1⟩)), ("GB", none), ("XGB", some ((), (), ⟨1, 1, 1⟩))]

/-- One per-family iteration of `train_all_models` seen as in-place mutations
of the shared store: the artifact-dict write (line 183 on success, line 193
on failure) produces one observable state, the evaluation-dict write (line
189 or 193) the next; the accumulator carries (current store, overall
success, trace so far). -/
def traceStep {R : Type} (acc : ModelsStore R × Bool × List (ModelsStore R))
    (o : FamilyOutcome R) : ModelsStore R × Bool × List (ModelsStore R) :=
  match o.2 with
  | some (h, a, er) =>
    let sA := {acc.1 with trained_models := dictSet acc.1.trained_models o.1 (some (h, a))}
    let sB := {sA with evaluation := dictSet sA.evaluation o.1 (some er)}
    (sB, acc.2.1, acc.2.2 ++ [sA, sB])
  | none =>
    let sA := {acc.1 with trained_models := dictSet acc.1.trained_models o.1 none}
    let sB := {sA with evaluation := dictSet sA.evaluation o.1 none}
    (sB, false, acc.2.2 ++ [sA, sB])

/-- Function `train_all_models` (lines 142-211) seen as the sequence of intermediate states
of the module-level `models_store`, one entry per in-place mutation, in
source order: the `trained_models.clear()` (line 166), the
`evaluation.clear()` (line 167), the two dict writes of each family
iteration, the `best_model_name` write (line 203 or 206) and the final
`models_ready` write (lines 208-210). Every state in this list is
observable by a concurrent reader of the shared dict. -/
def train_all_models_trace {R : Type} (store : ModelsStore R)
    (outcomes : List (FamilyOutcome R)) : List (ModelsStore R) :=
  let s1 := {store with trained_models := []}
  let s2 := {s1 with evaluation := []}
  let r := outcomes.foldl traceStep (s2, true, [s1, s2])
  let best := selectBest r.1.evaluation
  let sBst := {r.1 with best_model_name := best}
  let overall := if best.isSome then r.2.1 else false
  let pair_ok : Bool := match best with
    | some b => ((dictGet? r.1.trained_models b).getD none).isSome
    | none => false
  let ready := overall && best.isSome && pair_ok
    && store.imputer.isSome && store.scaler.isSome
  r.2.2 ++ [sBst, {sBst with models_ready := ready}]

def previouslyTrainedStore : ModelsStore Unit :=
  { imputer := some (), scaler := some (),
    trained_models := [("RF", some ((), ()))],
    evaluation := [("RF", some ⟨1, 1, 1⟩)],
    feature_names := FEATURE_COLS, nba_teams_lu := [],
    best_model_name := some "RF", models_ready := true }

def retrainOutcomes : List (FamilyOutcome Unit) := [("RF", some ((), (), ⟨1, 1, 1⟩))]

/-- Python `round()`: round half to even (banker's rounding). -/
def pyround (q : ℚ) : ℤ :=
  let f := ⌊q⌋
  let r := q - f
  if r < 1/2 then f
  else if 1/2 < r then f + 1
  else if f % 2 = 0 then f else f + 1

/-- Function `predict_scores_with_model` (lines 380-404). Every guard failure in the
source returns the `(None, None)` sentinel, modelled as `none`: a `None` or
empty feature frame (lines 381-383); a key that is not in the trained-models
dict — including the `None` key the caller passes before any selection — or
that maps to Python `None` (lines 384-386; the home/away sub-model `None`
check of lines 388-391 is unreachable for pairs the trainer stores, which
always carry both sub-models, as is the `except` for the library predict
call, modelled by the total function `run`). On success both regressors are
applied to the same vector and rounded (line 400). -/
def predict_scores_with_model {R : Type} (run : R → List Val → ℚ) (store : ModelsStore R)
    (feature_vector_df : Option (List Val)) (model_name_key : Option String) :
    Option (ℤ × ℤ) :=
  match feature_vector_df with
  | none => none
  | some v =>
    if v.isEmpty then none
    else
      match model_name_key with
      | none => none
      | some k =>
        match dictGet? store.trained_models k with
        | none => none
        | some none => none
        | some (some pair) =>
          some (pyround (run pair.1 v), pyround (run pair.2 v))

def runUnit : Unit → List Val → ℚ := fun _ _ => 0

def readyNoModelStore : ModelsStore Unit :=
  { imputer := some (), scaler := some (), trained_models := [],
    evaluation := [("RF", some ⟨1, 1, 1⟩)], feature_names := FEATURE_COLS,
    nba_teams_lu := [], best_model_name := some "RF", models_ready := true }

/-- The feature name an f-string like `f"Home_{suffix}_PreGame"` builds. -/
def featName (pre suf : String) : String := pre ++ suf ++ "_PreGame"

/-- The Home_/Away_ population loops (lines 329-339): for every stat of the
team's rolling-stats dict whose prefixed feature name is in the model's
schema, write its value into the live-features dict. -/
def popFold (feature_names : List String) (pre : String)
    (stats : List (String × Val)) (d0 : List (String × Val)) : List (String × Val) :=
  stats.foldl
    (fun d p => if feature_names.contains (featName pre p.1)
                then dictSet d (featName pre p.1) p.2 else d) d0

/-- The Diff_ value (lines 348-354): `home - away` when both are non-NaN,
else NaN (the `except TypeError` path cannot fire on numeric cells). -/
def diffVal (home_stats away_stats : List (String × Val)) (suf : String) : Val :=
  match dictGetV home_stats suf, dictGetV away_stats suf with
  | some hv, some av => some (hv - av)
  | _, _ => none

/-- The Diff_ population loop (lines 344-354), iterating over the home
stats' keys. -/
def diffFold (feature_names : List String) (home_stats away_stats : List (String × Val))
    (d0 : List (String × Val)) : List (String × Val) :=
  (home_stats.map Prod.fst).foldl
    (fun d suf => if feature_names.contains (featName "Diff_" suf)
                  then dictSet d (featName "Diff_" suf) (diffVal home_stats away_stats suf)
                  else d) d0

/-- The vector-building stage of `prepare_live_features_from_stats` (lines
326-363): populate the live-features dict from the home stats, the away
stats and the derived differences, then emit one value per schema feature in
schema order, with NaN for any schema feature absent from the dict (the
`ordered_live_features` comprehension of line 362). -/
def buildLiveFeatureRow (feature_names : List String)
    (home_stats away_stats : List (String × Val)) : List (String × Val) :=
  let d3 := diffFold feature_names home_stats away_stats
    (popFold feature_names "Away_" away_stats
      (popFold feature_names "Home_" home_stats []))
  feature_names.map (fun c => (c, dictGetV d3 c))

/-- Function `prepare_live_features_from_stats` (lines 321-363): with a missing home
or away stats dict the row is all-NaN (lines 322-324), otherwise the row is
built from the two dicts. The subsequent imputer/scaler transform of lines
365-378 applies the fitted preprocessing artifacts entrywise and rebuilds
the frame with `columns=feature_names`; it changes values, not the schema,
and is outside this builder stage. -/
def prepare_live_features_from_stats (feature_names : List String) :
    Option (List (String × Val)) → Option (List (String × Val)) → List (String × Val)
  | some hs, some as2 => buildLiveFeatureRow feature_names hs as2
  | _, _ => feature_names.map (fun c => (c, none))

def exampleSchema : List String :=
  [featName "Home_" "PTS_Roll10", featName "Away_" "PTS_Roll10", featName "Diff_" "PTS_Roll10"]

def exampleHomeStats : List (String × Val) := [("PTS_Roll10", some 110)]

def exampleAwayStats : List (String × Val) := [("PTS_Roll10", some 100)]

/-- Target column names (lines 44-45). -/
def TARGET_HOME_SCORE : String := "Home_Team_Score"

def TARGET_AWAY_SCORE : String := "Away_Team_Score"

/-- A CSV already read into a frame: column names plus rows positionally
aligned with them, each cell after `pd.to_numeric(errors="coerce")` and the
`±inf → NaN` replacement (`none` = NaN / unparsable). -/
structure DataFrame where
  cols : List String
  rows : List (List Val)

/-- Fitted `SimpleImputer(strategy="mean")` fill value: the mean of the observed cells of one
column (a column reaching the imputer always has at least one observed cell,
since all-NaN columns were dropped before). -/
def colMean (vals : List Val) : ℚ :=
  let obs := vals.filterMap id
  if obs.isEmpty then 0 else obs.sum / obs.length

/-- Function `load_and_prep_historical_data` (lines 65-140). The file read is given as
the already-parsed `df`; `scale` is the fitted `StandardScaler` transform,
an entrywise per-column map (its center/deviation involve a square root, so
the fitted map is a parameter). The stages: keep schema-or-target columns
present in the CSV (line 80), fail without both targets (lines 81-84), keep
the usable schema columns (line 90, failing if none), drop rows missing a
target (line 103, failing if none remain), drop all-NaN feature columns and
shrink the schema to match (lines 114-121), fail on an empty matrix (line
123), impute column means (lines 127-131), scale (lines 133-137), and
return the schema, the matrix rebuilt with `columns=feature_names`, and the
two target vectors. -/
def load_and_prep_historical_data (df : DataFrame) (scale : String → ℚ → ℚ) :
    Option (List String × (List String × List (List ℚ)) × List ℚ × List ℚ) :=
  let cols_to_keep_initially := FEATURE_COLS ++ [TARGET_HOME_SCORE, TARGET_AWAY_SCORE]
  let actual_cols_present := cols_to_keep_initially.filter (fun c => df.cols.contains c)
  if ¬ (df.cols.contains TARGET_HOME_SCORE ∧ df.cols.contains TARGET_AWAY_SCORE) then none
  else
    let df_ml_rows := df.rows.map (fun r => actual_cols_present.map (fun c => cellVal df.cols r c))
    let usable_feature_names := FEATURE_COLS.filter (fun c => actual_cols_present.contains c)
    if usable_feature_names.isEmpty then none
    else
      let rows2 := df_ml_rows.filter (fun r =>
        (cellVal actual_cols_present r TARGET_HOME_SCORE).isSome
        && (cellVal actual_cols_present r TARGET_AWAY_SCORE).isSome)
      if rows2.isEmpty then none
      else
        let Xrows := rows2.map (fun r =>
          usable_feature_names.map (fun c => cellVal actual_cols_present r c))
        let y_home := rows2.map (fun r => (cellVal actual_cols_present r TARGET_HOME_SCORE).getD 0)
        let y_away := rows2.map (fun r => (cellVal actual_cols_present r TARGET_AWAY_SCORE).getD 0)
        let allNaN := fun c => (Xrows.map (fun r => cellVal usable_feature_names r c)).all
          (fun v => v.isNone)
        let feature_names := usable_feature_names.filter (fun c => ! allNaN c)
        if feature_names.isEmpty then none
        else
          let Xrows2 := Xrows.map (fun r =>
            feature_names.map (fun c => cellVal usable_feature_names r c))
          if Xrows2.isEmpty then none
          else
            let meanOf := fun c => colMean (Xrows2.map (fun r => cellVal feature_names r c))
            let Ximp := Xrows2.map (fun r =>
              feature_names.map (fun c => (cellVal feature_names r c).getD (meanOf c)))
            let Xfin := Ximp.map (fun r => List.zipWith (fun c x => scale c x) feature_names r)
            some (feature_names, (feature_names, Xfin), y_home, y_away)

def exampleCSV : DataFrame :=
  { cols := ["Home_AST_Roll10_PreGame", "Home_Team_Score", "Away_Team_Score"],
    rows := [[some 3, some 101, some 99]] }

def exampleLoadedSchema : List String := ["Home_AST_Roll10_PreGame"]

def exampleLoadedX : List String × List (List ℚ) := (["Home_AST_Roll10_PreGame"], [[3]])

/-!
Theorems: generic dictionary and list lemmas, then the claim theorems with
their witnesses and counterexamples.
-/

theorem dictGet?_dictSet_self {α : Type} (d : List (String × α)) (k : String) (v : α) :
    dictGet? (dictSet d k v) k = some v := by
  induction d with
  | nil => simp [dictSet, dictGet?, List.find?]
  | cons p t ih =>
    by_cases h : p.1 == k
    · simp [dictSet, h, dictGet?, List.find?]
    · simpa [dictSet, h, dictGet?, List.find?] using ih

theorem dictGet?_dictSet_ne {α : Type} (d : List (String × α)) (k k2 : String) (v : α)
    (h : k2 ≠ k) : dictGet? (dictSet d k v) k2 = dictGet? d k2 := by
  have hkk : (k == k2) = false := by
    simpa [beq_iff_eq] using Ne.symm h
  induction d with
  | nil => simp [dictSet, dictGet?, List.find?, hkk]
  | cons p t ih =>
    by_cases hp : p.1 == k
    · have hpk : p.1 = k := by simpa using hp
      have hp2 : (p.1 == k2) = false := by rw [hpk]; exact hkk
      simp [dictSet, hp, dictGet?, List.find?, hkk, hp2]
    · by_cases hpk2 : p.1 == k2
      · simp [dictSet, hp, dictGet?, List.find?, hpk2]
      · simpa [dictSet, hp, dictGet?, List.find?, hpk2] using ih

theorem keys_dictSet_of_mem {α : Type} (d : List (String × α)) (k : String) (v : α)
    (h : k ∈ d.map Prod.fst) : (dictSet d k v).map Prod.fst = d.map Prod.fst := by
  induction d with
  | nil => simp at h
  | cons p t ih =>
    by_cases hp : p.1 == k
    · have hpk : p.1 = k := by simpa using hp
      simp [dictSet, hp, hpk]
    · have hk : k ∈ t.map Prod.fst := by
        have hpk : ¬ p.1 = k := by simpa using hp
        rcases (by simpa using h) with h1 | h2
        · exact absurd h1.symm hpk
        · simpa using h2
      simp [dictSet, hp, ih hk]

theorem dictSet_of_not_mem {α : Type} (d : List (String × α)) (k : String) (v : α)
    (h : k ∉ d.map Prod.fst) : dictSet d k v = d ++ [(k, v)] := by
  induction d with
  | nil => simp [dictSet]
  | cons p t ih =>
    have hpk : ¬ p.1 == k := by
      simp only [List.map_cons, List.mem_cons] at h
      simpa using fun he => h (Or.inl he.symm)
    have ht : k ∉ t.map Prod.fst := fun hm => h (by simp [hm])
    simp [dictSet, hpk, ih ht]

set_option maxHeartbeats 1000000 in
theorem calc_main_shape (g : GameLogDF) (h1 : g.rows ≠ [])
    (h2 : ∀ c ∈ required_cols_from_log, c ∈ g.cols) :
    calculate_live_rolling_stats_for_log (some g) = mainStatsForm g := by
  have hlen : ¬ g.rows.length < 1 := by
    simpa [Nat.lt_one_iff, List.length_eq_zero] using h1
  simp [calculate_live_rolling_stats_for_log, hlen, h2,
    mean_stat_bases, sum_stat_bases, required_cols_from_log, expected_output_base_keys,
    List.foldl, dictSet, dictGetV, dictGet?, List.find?, mainStatsForm]

theorem derivePct_attempts_zero (m : Val) : derivePct m (some 0) = some 0 := by
  cases m <;> simp [derivePct]

/-- Claim C1 counterexample: for a team with exactly 3 known games (PTS
values 10, 20, 60 in chronological order) and window N = 10, the reported
mean-type stat is 15 = (10 + 20) / 2, not the arithmetic mean 30 of all 3
games: the left-closed rolling window of the source excludes the most recent
game from the final reported value. -/
theorem c1_counterexample :
    dictGetV (calculate_live_rolling_stats_for_log (some (threeGameLog 10 20 60)))
        "PTS_Roll10" = some 15 ∧
    dictGetV (calculate_live_rolling_stats_for_log (some (threeGameLog 10 20 60)))
        "PTS_Roll10" ≠ some ((10 + 20 + 60) / 3) := by
  rw [calc_main_shape _ (by simp [threeGameLog]) (fun c hc => hc)]
  constructor <;>
    simp [mainStatsForm, dictGetV, dictGet?, List.find?, gameCol, threeGameLog, statRow,
      sortByDate, insertByDate, cellVal, required_cols_from_log, lastRolling, meanAgg,
      NBA_API_ROLLING_WINDOW] <;>
    norm_num

/-- Claim C1 (amended): for a team with exactly 3 known games and window
N = 10, each mean-type rolling stat reported by
`calculate_live_rolling_stats_for_log` equals the arithmetic mean of the
FIRST TWO games' values: the `closed="left"` window at the last row spans
the games strictly before the most recent one, so the latest game is
excluded from the reported value. -/
theorem c1_amended (a b c : ℚ) :
    dictGetV (calculate_live_rolling_stats_for_log (some (threeGameLog a b c)))
        "PTS_Roll10" = some ((a + b) / 2) ∧
    dictGetV (calculate_live_rolling_stats_for_log (some (threeGameLog a b c)))
        "AST_Roll10" = some ((a + b) / 2) ∧
    dictGetV (calculate_live_rolling_stats_for_log (some (threeGameLog a b c)))
        "BLK_Roll10" = some ((a + b) / 2) ∧
    dictGetV (calculate_live_rolling_stats_for_log (some (threeGameLog a b c)))
        "DREB_Roll10" = some ((a + b) / 2) ∧
    dictGetV (calculate_live_rolling_stats_for_log (some (threeGameLog a b c)))
        "OREB_Roll10" = some ((a + b) / 2) ∧
    dictGetV (calculate_live_rolling_stats_for_log (some (threeGameLog a b c)))
        "PF_Roll10" = some ((a + b) / 2) ∧
    dictGetV (calculate_live_rolling_stats_for_log (some (threeGameLog a b c)))
        "REB_Roll10" = some ((a + b) / 2) ∧
    dictGetV (calculate_live_rolling_stats_for_log (some (threeGameLog a b c)))
        "STL_Roll10" = some ((a + b) / 2) ∧
    dictGetV (calculate_live_rolling_stats_for_log (some (threeGameLog a b c)))
        "TOV_Roll10" = some ((a + b) / 2) := by
  rw [calc_main_shape _ (by simp [threeGameLog]) (fun c hc => hc)]
  refine ⟨?_, ?_, ?_, ?_, ?_, ?_, ?_, ?_, ?_⟩ <;>
    simp [mainStatsForm, dictGetV, dictGet?, List.find?, gameCol, threeGameLog, statRow,
      sortByDate, insertByDate, cellVal, required_cols_from_log, lastRolling, meanAgg,
      NBA_API_ROLLING_WINDOW]

/-- Claim C7: whenever the trailing window's total attempts of a kind are
zero (and known), the derived percentage of that kind is exactly 0.0, not the
NaN sentinel. -/
theorem c7_zero_attempts_pct_zero (g : GameLogDF) (h1 : g.rows ≠ [])
    (h2 : ∀ c ∈ required_cols_from_log, c ∈ g.cols) :
    (lastRolling sumAgg (gameCol g "FGA") NBA_API_ROLLING_WINDOW = some 0 →
      dictGetV (calculate_live_rolling_stats_for_log (some g)) "FG_PCT_Roll10" = some 0) ∧
    (lastRolling sumAgg (gameCol g "FG3A") NBA_API_ROLLING_WINDOW = some 0 →
      dictGetV (calculate_live_rolling_stats_for_log (some g)) "FG3_PCT_Roll10" = some 0) ∧
    (lastRolling sumAgg (gameCol g "FTA") NBA_API_ROLLING_WINDOW = some 0 →
      dictGetV (calculate_live_rolling_stats_for_log (some g)) "FT_PCT_Roll10" = some 0) := by
  rw [calc_main_shape g h1 h2]
  refine ⟨fun hz => ?_, fun hz => ?_, fun hz => ?_⟩
  · have hform : dictGetV (mainStatsForm g) "FG_PCT_Roll10"
        = derivePct (lastRolling sumAgg (gameCol g "FGM") NBA_API_ROLLING_WINDOW)
            (lastRolling sumAgg (gameCol g "FGA") NBA_API_ROLLING_WINDOW) := rfl
    rw [hform, hz, derivePct_attempts_zero]
  · have hform : dictGetV (mainStatsForm g) "FG3_PCT_Roll10"
        = derivePct (lastRolling sumAgg (gameCol g "FG3M") NBA_API_ROLLING_WINDOW)
            (lastRolling sumAgg (gameCol g "FG3A") NBA_API_ROLLING_WINDOW) := rfl
    rw [hform, hz, derivePct_attempts_zero]
  · have hform : dictGetV (mainStatsForm g) "FT_PCT_Roll10"
        = derivePct (lastRolling sumAgg (gameCol g "FTM") NBA_API_ROLLING_WINDOW)
            (lastRolling sumAgg (gameCol g "FTA") NBA_API_ROLLING_WINDOW) := rfl
    rw [hform, hz, derivePct_attempts_zero]

/-- Claim C7 witness: on a concrete log whose trailing window has zero
field-goal attempts, the FG percentage evaluates to exactly 0.0. -/
theorem c7_witness :
    dictGetV (calculate_live_rolling_stats_for_log (some zeroAttemptLog)) "FG_PCT_Roll10"
      = some 0 :=
  (c7_zero_attempts_pct_zero zeroAttemptLog (by simp [zeroAttemptLog]) (fun c hc => hc)).1
    (by simp [zeroAttemptLog, gameCol, sortByDate, insertByDate, statRow, cellVal,
      required_cols_from_log, lastRolling, sumAgg, NBA_API_ROLLING_WINDOW, List.findIdx?])

/-- Claim C10: for every input whatsoever — a `None` log, an empty log, a log
missing required stat columns, or a well-formed log — the key list of the
returned mapping is exactly the fixed 18 base-statistic keys, in the source's
initialization order; stats that cannot be computed stay bound to the NaN
sentinel rather than being dropped, and no key is ever added. -/
theorem c10_key_set_invariant (input : Option GameLogDF) :
    (calculate_live_rolling_stats_for_log input).map Prod.fst
      = expected_output_base_keys := by
  match input with
  | none => rfl
  | some g =>
    by_cases h1 : g.rows = []
    · simp [calculate_live_rolling_stats_for_log, h1, expected_output_base_keys]
    · by_cases h2 : ∀ c ∈ required_cols_from_log, c ∈ g.cols
      · rw [calc_main_shape g h1 h2]; rfl
      · have hex : ∃ x ∈ required_cols_from_log, x ∉ g.cols := by
          push_neg at h2; exact h2
        have hlen : ¬ g.rows.length < 1 := by
          simpa [Nat.lt_one_iff, List.length_eq_zero] using h1
        simp [calculate_live_rolling_stats_for_log, hlen, hex, expected_output_base_keys]

theorem selectBest_eq_selectPairs (evals : List (String × Option EvalResult)) :
    selectBest evals = (selectPairs (validEvals evals)).map Prod.fst := by
  suffices h : ∀ acc : Option (String × ℚ),
      evals.foldl
        (fun (acc : Option (String × ℚ)) p =>
          match p.2 with
          | some er =>
            match acc with
            | none => some (p.1, er.average_mae)
            | some q => if er.average_mae < q.2 then some (p.1, er.average_mae) else acc
          | none => acc)
        acc
      = (validEvals evals).foldl
          (fun (acc : Option (String × ℚ)) p =>
            match acc with
            | none => some p
            | some q => if p.2 < q.2 then some p else acc)
          acc by
    simpa [selectBest, selectPairs] using congrArg (Option.map Prod.fst) (h none)
  induction evals with
  | nil => intro acc; rfl
  | cons p t ih =>
    intro acc
    match p with
    | (n, none) => simpa [validEvals] using ih acc
    | (n, some er) =>
      cases acc with
      | none => simpa [validEvals] using ih (some (n, er.average_mae))
      | some q =>
        by_cases hlt : er.average_mae < q.2 <;>
          simpa [validEvals, hlt] using ih _

theorem selectPairs_cons (p : String × ℚ) (t : List (String × ℚ)) :
    selectPairs (p :: t) = some (runMin p t) := by
  suffices h : ∀ (t : List (String × ℚ)) (q : String × ℚ),
      t.foldl
        (fun (acc : Option (String × ℚ)) p =>
          match acc with
          | none => some p
          | some q => if p.2 < q.2 then some p else acc)
        (some q)
      = some (runMin q t) by
    simpa [selectPairs, List.foldl] using h t p
  intro t
  induction t with
  | nil => intro q; rfl
  | cons p2 t2 ih =>
    intro q
    by_cases hlt : p2.2 < q.2 <;> simp [runMin, List.foldl, hlt] <;>
      simpa [runMin] using ih _

theorem find?_cons_true {α : Type} (a : α) (l : List α) (p : α → Bool)
    (h : p a = true) : (a :: l).find? p = some a := by
  simp [List.find?, h]

theorem find?_cons_false {α : Type} (a : α) (l : List α) (p : α → Bool)
    (h : p a = false) : (a :: l).find? p = l.find? p := by
  simp [List.find?, h]

theorem runMin_cons (q p2 : String × ℚ) (t2 : List (String × ℚ)) :
    runMin q (p2 :: t2) = runMin (if p2.2 < q.2 then p2 else q) t2 := by
  simp only [runMin, List.foldl_cons]

theorem runMin_snd_le (t : List (String × ℚ)) :
    ∀ q : String × ℚ, (runMin q t).2 ≤ q.2 ∧ ∀ p ∈ t, (runMin q t).2 ≤ p.2 := by
  induction t with
  | nil => intro q; exact ⟨le_refl _, by simp⟩
  | cons p2 t2 ih =>
    intro q
    rw [runMin_cons]
    by_cases hlt : p2.2 < q.2
    · rw [if_pos hlt]
      have h2 := ih p2
      refine ⟨le_trans h2.1 (le_of_lt hlt), ?_⟩
      intro p hp
      rcases List.mem_cons.mp hp with rfl | hp2
      · exact h2.1
      · exact h2.2 p hp2
    · rw [if_neg hlt]
      have h2 := ih q
      refine ⟨h2.1, ?_⟩
      intro p hp
      rcases List.mem_cons.mp hp with rfl | hp2
      · exact le_trans h2.1 (le_of_not_lt hlt)
      · exact h2.2 p hp2

theorem runMin_first (t : List (String × ℚ)) :
    ∀ q : String × ℚ,
      (q :: t).find? (fun p => p.2 == (runMin q t).2) = some (runMin q t) := by
  induction t with
  | nil =>
    intro q
    exact find?_cons_true q [] _ (by simp [runMin])
  | cons p2 t2 ih =>
    intro q
    by_cases hlt : p2.2 < q.2
    · have hr : runMin q (p2 :: t2) = runMin p2 t2 := by rw [runMin_cons, if_pos hlt]
      have hle : (runMin p2 t2).2 ≤ p2.2 := (runMin_snd_le t2 p2).1
      have hq : (q.2 == (runMin p2 t2).2) = false := by
        simp only [beq_eq_false_iff_ne, ne_eq]
        intro he
        exact absurd (he ▸ (lt_of_le_of_lt hle hlt)) (lt_irrefl _)
      rw [hr, find?_cons_false q (p2 :: t2) (fun p => p.2 == (runMin p2 t2).2) hq]
      exact ih p2
    · have hr : runMin q (p2 :: t2) = runMin q t2 := by rw [runMin_cons, if_neg hlt]
      have hle : (runMin q t2).2 ≤ q.2 := (runMin_snd_le t2 q).1
      rw [hr]
      by_cases hq : q.2 = (runMin q t2).2
      · have hqr : q = runMin q t2 := by
          have h1 := ih q
          rw [find?_cons_true q t2 (fun p => p.2 == (runMin q t2).2) (by simpa using hq)] at h1
          exact Option.some.inj h1
        rw [find?_cons_true q (p2 :: t2) (fun p => p.2 == (runMin q t2).2) (by simpa using hq)]
        exact congrArg some hqr
      · have hp2 : (p2.2 == (runMin q t2).2) = false := by
          simp only [beq_eq_false_iff_ne, ne_eq]
          intro he
          have hq2 : q.2 ≤ p2.2 := le_of_not_lt hlt
          exact hq (le_antisymm (le_trans hq2 (le_of_eq he)) hle)
        have hqf : (q.2 == (runMin q t2).2) = false := by simpa using hq
        rw [find?_cons_false q (p2 :: t2) (fun p => p.2 == (runMin q t2).2) hqf,
          find?_cons_false p2 t2 (fun p => p.2 == (runMin q t2).2) hp2]
        have h1 := ih q
        rw [find?_cons_false q t2 (fun p => p.2 == (runMin q t2).2) hqf] at h1
        exact h1

theorem runMin_snd_foldl (t : List (String × ℚ)) :
    ∀ q : String × ℚ, (runMin q t).2 = (t.map Prod.snd).foldl min q.2 := by
  induction t with
  | nil => intro q; rfl
  | cons p2 t2 ih =>
    intro q
    rw [runMin_cons]
    by_cases hlt : p2.2 < q.2
    · rw [if_pos hlt, ih p2]
      have hm : min q.2 p2.2 = p2.2 := min_eq_right (le_of_lt hlt)
      simp [hm]
    · rw [if_neg hlt, ih q]
      have hm : min q.2 p2.2 = q.2 := min_eq_left (le_of_not_lt hlt)
      simp [hm]

theorem selectBest_eq_spec (evals : List (String × Option EvalResult)) :
    selectBest evals = selectBestSpec evals := by
  rw [selectBest_eq_selectPairs]
  match hv : validEvals evals with
  | [] => simp [selectPairs, selectBestSpec, hv]
  | p :: t =>
    rw [selectPairs_cons]
    have hmin : ((p :: t).map Prod.snd).min? = some ((runMin p t).2) := by
      show some ((t.map Prod.snd).foldl min p.2) = some ((runMin p t).2)
      rw [runMin_snd_foldl]
    simp only [selectBestSpec, hv, hmin]
    rw [runMin_first]

theorem trainFold_success {R : Type} (outs : List (FamilyOutcome R)) :
    ∀ (tm : List (String × Option (R × R))) (ev : List (String × Option EvalResult)) (b : Bool),
      (outs.foldl trainStep (tm, ev, b)).2.2 = (b && outs.all (fun o => o.2.isSome)) := by
  induction outs with
  | nil => intro tm ev b; simp
  | cons o t ih =>
    intro tm ev b
    match ho : o.2 with
    | some r =>
      simp only [List.foldl_cons, trainStep, ho, List.all_cons, Option.isSome_some,
        Bool.true_and]
      exact ih _ _ b
    | none =>
      simp only [List.foldl_cons, trainStep, ho, List.all_cons, Option.isSome_none,
        Bool.false_and, Bool.and_false]
      rw [ih _ _ false]
      simp

theorem trainFold_build {R : Type} (outs : List (FamilyOutcome R)) :
    ∀ (tm : List (String × Option (R × R))) (ev : List (String × Option EvalResult)) (b : Bool),
      (∀ o ∈ outs, o.1 ∉ tm.map Prod.fst) → (∀ o ∈ outs, o.1 ∉ ev.map Prod.fst) →
      (outs.map Prod.fst).Nodup →
      (outs.foldl trainStep (tm, ev, b)).1
          = tm ++ outs.map (fun o => (o.1, o.2.map (fun r => (r.1, r.2.1)))) ∧
      (outs.foldl trainStep (tm, ev, b)).2.1
          = ev ++ outs.map (fun o => (o.1, o.2.map (fun r => r.2.2))) := by
  induction outs with
  | nil => intro tm ev b _ _ _; simp
  | cons o t ih =>
    intro tm ev b htm hev hnd
    have htm0 : o.1 ∉ tm.map Prod.fst := htm o (by simp)
    have hev0 : o.1 ∉ ev.map Prod.fst := hev o (by simp)
    have h0 : o.1 ∉ t.map Prod.fst ∧ (t.map Prod.fst).Nodup :=
      List.nodup_cons.mp (by simpa using hnd)
    have hndt : (t.map Prod.fst).Nodup := h0.2
    have hot : ∀ o2 ∈ t, o2.1 ≠ o.1 := by
      intro o2 ho2 he
      have : o.1 ∈ t.map Prod.fst := he ▸ List.mem_map_of_mem Prod.fst ho2
      exact h0.1 this
    have htm2 : ∀ o2 ∈ t, o2.1 ∉ (tm ++ [(o.1, o.2.map (fun r => (r.1, r.2.1)))]).map Prod.fst := by
      intro o2 ho2
      simp only [List.map_append, List.mem_append, List.map_cons, List.map_nil, List.mem_cons]
      rintro (h1 | h2)
      · exact htm o2 (by simp [ho2]) h1
      · rcases h2 with h2 | h2
        · exact hot o2 ho2 h2
        · simp at h2
    have hev2 : ∀ o2 ∈ t, o2.1 ∉ (ev ++ [(o.1, o.2.map (fun r => r.2.2))]).map Prod.fst := by
      intro o2 ho2
      simp only [List.map_append, List.mem_append, List.map_cons, List.map_nil, List.mem_cons]
      rintro (h1 | h2)
      · exact hev o2 (by simp [ho2]) h1
      · rcases h2 with h2 | h2
        · exact hot o2 ho2 h2
        · simp at h2
    match ho : o.2 with
    | some r =>
      have hstep : trainStep (tm, ev, b) o
          = (tm ++ [(o.1, some (r.1, r.2.1))], ev ++ [(o.1, some r.2.2)], b) := by
        simp [trainStep, ho, dictSet_of_not_mem _ _ _ htm0, dictSet_of_not_mem _ _ _ hev0]
      rw [List.foldl_cons, hstep]
      have := ih (tm ++ [(o.1, some (r.1, r.2.1))]) (ev ++ [(o.1, some r.2.2)]) b
        (by simpa [ho] using htm2) (by simpa [ho] using hev2) hndt
      simpa [ho, List.append_assoc] using this
    | none =>
      have hstep : trainStep (tm, ev, b) o
          = (tm ++ [(o.1, none)], ev ++ [(o.1, none)], false) := by
        simp [trainStep, ho, dictSet_of_not_mem _ _ _ htm0, dictSet_of_not_mem _ _ _ hev0]
      rw [List.foldl_cons, hstep]
      have := ih (tm ++ [(o.1, none)]) (ev ++ [(o.1, none)]) false
        (by simpa [ho] using htm2) (by simpa [ho] using hev2) hndt
      simpa [ho, List.append_assoc] using this

theorem dictGet?_build {α β : Type} (L : List β) (key : β → String) (f : β → α)
    (hnd : (L.map key).Nodup) (b : β) (hb : b ∈ L) :
    dictGet? (L.map (fun x => (key x, f x))) (key b) = some (f b) := by
  induction L with
  | nil => simp at hb
  | cons x t ih =>
    have h0 : key x ∉ t.map key ∧ (t.map key).Nodup :=
      List.nodup_cons.mp (by simpa using hnd)
    by_cases hx : key x == key b
    · have hkk : key x = key b := by simpa using hx
      rcases List.mem_cons.mp hb with rfl | hbt
      · simp [dictGet?, List.find?, hx]
      · exact absurd (hkk ▸ List.mem_map_of_mem key hbt) h0.1
    · have hbt : b ∈ t := by
        rcases List.mem_cons.mp hb with rfl | hbt
        · simp at hx
        · exact hbt
      simpa [dictGet?, List.find?, hx] using ih h0.2 hbt

/-- Claim C2 (amended): after a `train_all_models` run whose data split
succeeds, `models_ready` is true iff a best-model selection exists, the
selected family's (home, away) artifact pair exists, the fitted imputer and
scaler exist, AND no configured family failed: the source conjoins
`overall_success`, so readiness is NOT independent of other families'
failures. -/
theorem c2_amended {R : Type} (store : ModelsStore R) (outs : List (FamilyOutcome R)) :
    ((train_all_models store true outs).1.models_ready = true) ↔
      (outs.all (fun o => o.2.isSome) = true ∧
       (train_all_models store true outs).1.best_model_name.isSome = true ∧
       selectedPairPresent (train_all_models store true outs).1 = true ∧
       store.imputer.isSome = true ∧ store.scaler.isSome = true) := by
  have hs := trainFold_success outs [] [] true
  simp only [train_all_models, Bool.true_eq_false, if_false, selectedPairPresent]
  cases hbest : selectBest (outs.foldl trainStep ([], [], true)).2.1 with
  | none => simp [hbest, hs]
  | some b => simp [hbest, hs, Bool.and_eq_true, and_assoc]

/-- Claim C3 (amended): when one family throws during fit or evaluate,
`train_all_models` (whose per-family failure boundary is total — the
exception is caught) still trains and evaluates every remaining family, and
records the Python `None` sentinel — not absence — under the failed family's
key in both the trained-models dict and the evaluation dict: every
configured family has exactly one entry, successful families with their
artifacts and evaluation, failed families with `None`. -/
theorem c3_amended {R : Type} (store : ModelsStore R) (outs : List (FamilyOutcome R))
    (hnd : (outs.map Prod.fst).Nodup) :
    ((train_all_models store true outs).1.evaluation.map Prod.fst = outs.map Prod.fst) ∧
    (∀ o ∈ outs,
      dictGet? (train_all_models store true outs).1.evaluation o.1
          = some (o.2.map (fun r => r.2.2)) ∧
      dictGet? (train_all_models store true outs).1.trained_models o.1
          = some (o.2.map (fun r => (r.1, r.2.1)))) := by
  have hb := trainFold_build outs [] [] true (by simp) (by simp) hnd
  have hev : (train_all_models store true outs).1.evaluation
      = outs.map (fun o => (o.1, o.2.map (fun r => r.2.2))) := by
    simp only [train_all_models, Bool.true_eq_false, if_false]
    simpa using hb.2
  have htm : (train_all_models store true outs).1.trained_models
      = outs.map (fun o => (o.1, o.2.map (fun r => (r.1, r.2.1)))) := by
    simp only [train_all_models, Bool.true_eq_false, if_false]
    simpa using hb.1
  refine ⟨?_, ?_⟩
  · rw [hev]
    simp
  · intro o ho
    constructor
    · rw [hev]
      exact dictGet?_build outs Prod.fst (fun o => o.2.map (fun r => r.2.2)) hnd o ho
    · rw [htm]
      exact dictGet?_build outs Prod.fst (fun o => o.2.map (fun r => (r.1, r.2.1))) hnd o ho

/-- Claim C4: model selection picks the family with the lowest average MAE
among families with a valid (non-`None`) evaluation, and on an exact tie the
earliest-registered family wins: the source's strict-improvement scan equals
the spec's first-minimizer selection on every evaluation map; in particular
for average MAEs A: 8.5, B: 7.9, C: 7.9 registered in order A, B, C the
selected family is B. -/
theorem c4_claim :
    (∀ evals, selectBest evals = selectBestSpec evals) ∧
      selectBest exampleEvaluation = some "B" := by
  refine ⟨selectBest_eq_spec, ?_⟩
  norm_num [selectBest, exampleEvaluation, List.foldl]

/-- Claim C2 counterexample: with fitted preprocessing artifacts, outcomes
in which RF throws and GB trains fine give a run after which a selection
exists (GB), GB's artifact pair exists and both preprocessing artifacts
exist — yet `models_ready` is false, because the failed RF family cleared
`overall_success`. This refutes "independent of whether any other family
failed". -/
theorem c2_counterexample :
    (train_all_models storeWithArtifacts true mixedOutcomes).1.best_model_name = some "GB" ∧
    selectedPairPresent (train_all_models storeWithArtifacts true mixedOutcomes).1 = true ∧
    storeWithArtifacts.imputer.isSome = true ∧
    storeWithArtifacts.scaler.isSome = true ∧
    (train_all_models storeWithArtifacts true mixedOutcomes).1.models_ready = false := by
  decide

/-- Claim C3 counterexample: with three configured families of which exactly
the second (GB) throws, the evaluation map's key list is ["RF", "GB", "XGB"]
— it contains an entry (mapped to Python `None`) for the failed family, not
"entries for the surviving families only" as the claim states. -/
theorem c3_counterexample :
    (train_all_models storeWithArtifacts true threeOutcomes).1.evaluation.map Prod.fst
        = ["RF", "GB", "XGB"] ∧
    dictGet? (train_all_models storeWithArtifacts true threeOutcomes).1.evaluation "GB"
        = some none := by
  decide

/-- Claim C3 witness: the amended theorem applied to the concrete
three-family run with one failure. -/
theorem c3_witness :
    (train_all_models storeWithArtifacts true threeOutcomes).1.evaluation.map Prod.fst
      = threeOutcomes.map Prod.fst :=
  (c3_amended storeWithArtifacts threeOutcomes (by decide)).1

theorem traceStep_trace_append {R : Type} (acc : ModelsStore R × Bool × List (ModelsStore R))
    (o : FamilyOutcome R) : ∃ l2, (traceStep acc o).2.2 = acc.2.2 ++ l2 := by
  match ho : o.2 with
  | some r =>
    exact ⟨[{acc.1 with trained_models := dictSet acc.1.trained_models o.1 (some (r.1, r.2.1))},
            {acc.1 with trained_models := dictSet acc.1.trained_models o.1 (some (r.1, r.2.1)),
                        evaluation := dictSet acc.1.evaluation o.1 (some r.2.2)}],
           by simp [traceStep, ho]⟩
  | none =>
    exact ⟨[{acc.1 with trained_models := dictSet acc.1.trained_models o.1 none},
            {acc.1 with trained_models := dictSet acc.1.trained_models o.1 none,
                        evaluation := dictSet acc.1.evaluation o.1 none}],
           by simp [traceStep, ho]⟩

theorem traceStep_foldl_append {R : Type} (outs : List (FamilyOutcome R)) :
    ∀ acc : ModelsStore R × Bool × List (ModelsStore R),
      ∃ l, (outs.foldl traceStep acc).2.2 = acc.2.2 ++ l := by
  induction outs with
  | nil => intro acc; exact ⟨[], by simp⟩
  | cons o t ih =>
    intro acc
    obtain ⟨l2, h2⟩ := traceStep_trace_append acc o
    obtain ⟨l, hl⟩ := ih (traceStep acc o)
    exact ⟨l2 ++ l, by rw [List.foldl_cons, hl, h2, List.append_assoc]⟩

/-- Claim C9 (amended): retraining does NOT swap the whole state object
atomically; `train_all_models` mutates the shared `models_store` in place,
field by field, and the very first mutation — clearing the trained-models
dict — exposes to any concurrent reader a half-updated state that keeps the
previous run's `models_ready` flag and preprocessing artifacts alongside an
empty model dict. -/
theorem c9_amended {R : Type} (store : ModelsStore R) (outs : List (FamilyOutcome R)) :
    (train_all_models_trace store outs).head? = some {store with trained_models := []} ∧
    ({store with trained_models := []} : ModelsStore R).models_ready = store.models_ready ∧
    ({store with trained_models := []} : ModelsStore R).imputer = store.imputer ∧
    ({store with trained_models := []} : ModelsStore R).scaler = store.scaler := by
  obtain ⟨l, hl⟩ := traceStep_foldl_append outs
    ({store with trained_models := [], evaluation := []}, true,
     [{store with trained_models := []}, {store with trained_models := [], evaluation := []}])
  refine ⟨?_, rfl, rfl, rfl⟩
  simp only [train_all_models_trace]
  rw [hl]
  simp

/-- Claim C9 counterexample: retraining from a previously-ready store passes
through the observable intermediate state with the stale `models_ready =
true` and an empty trained-models dict — a state equal to neither the old
nor the final store, refuting the single-atomic-swap claim. -/
theorem c9_counterexample :
    (train_all_models_trace previouslyTrainedStore retrainOutcomes).head?
        = some {previouslyTrainedStore with trained_models := []} ∧
    ({previouslyTrainedStore with trained_models := []} : ModelsStore Unit).models_ready = true ∧
    ({previouslyTrainedStore with trained_models := []} : ModelsStore Unit).trained_models = [] ∧
    ({previouslyTrainedStore with trained_models := []} : ModelsStore Unit)
        ≠ previouslyTrainedStore ∧
    (train_all_models_trace previouslyTrainedStore retrainOutcomes).getLast?
        ≠ some {previouslyTrainedStore with trained_models := []} := by
  decide

/-- Claim C8 counterexample: the not-ready precondition violation (initial
untrained store) and the selected-artifact-missing violation (store whose
best model has no trained pair) produce the very same `(None, None)` sentinel
— equal outcomes, not distinct typed errors, and no raised `NotReadyError`
value exists in the predictor's result type. -/
theorem c8_counterexample :
    predict_scores_with_model runUnit (init_models_store Unit) (some [some 1])
        (init_models_store Unit).best_model_name = none ∧
    predict_scores_with_model runUnit readyNoModelStore (some [some 1])
        readyNoModelStore.best_model_name = none ∧
    predict_scores_with_model runUnit (init_models_store Unit) (some [some 1])
        (init_models_store Unit).best_model_name
      = predict_scores_with_model runUnit readyNoModelStore (some [some 1])
          readyNoModelStore.best_model_name := by
  decide

/-- Claim C8 (amended): calling the predictor before any training — on the
initial store, whose best-model name is `None` and whose model dict is empty
— never returns a numeric score pair: it returns the `(None, None)` sentinel
(modelled `none`). The source defines no `NotReadyError`, `ModelMissingError`
or `SchemaMismatchError` types; violated preconditions are not signalled by
distinct typed errors (the command layer separately checks `models_ready`
and replies with a message). -/
theorem c8_amended {R : Type} (run : R → List Val → ℚ) (fv : Option (List Val)) :
    predict_scores_with_model run (init_models_store R) fv
        (init_models_store R).best_model_name = none := by
  cases fv with
  | none => rfl
  | some v =>
    by_cases hv : v.isEmpty <;> simp [predict_scores_with_model, init_models_store, hv]

theorem str_data_append (a b : String) : (a ++ b).data = a.data ++ b.data := by
  cases a; cases b; rfl

theorem str_data_inj {s t : String} (h : s.data = t.data) : s = t := by
  cases s; cases t; exact congrArg String.mk h

theorem featName_data (pre suf : String) :
    (featName pre suf).data = pre.data ++ suf.data ++ "_PreGame".data := by
  simp [featName, str_data_append]

theorem featName_inj (pre : String) {s t : String}
    (h : featName pre s = featName pre t) : s = t := by
  have hd := congrArg String.data h
  rw [featName_data, featName_data] at hd
  have h2 : pre.data ++ s.data = pre.data ++ t.data :=
    List.append_cancel_right hd
  exact str_data_inj (List.append_cancel_left h2)

theorem home_ne_away (s t : String) : featName "Home_" s ≠ featName "Away_" t := by
  intro h
  have hd := congrArg String.data h
  rw [featName_data, featName_data] at hd
  simp only [show ("Home_" : String).data = ['H', 'o', 'm', 'e', '_'] from rfl,
    show ("Away_" : String).data = ['A', 'w', 'a', 'y', '_'] from rfl,
    List.cons_append, List.nil_append] at hd
  simp at hd

theorem home_ne_diff (s t : String) : featName "Home_" s ≠ featName "Diff_" t := by
  intro h
  have hd := congrArg String.data h
  rw [featName_data, featName_data] at hd
  simp only [show ("Home_" : String).data = ['H', 'o', 'm', 'e', '_'] from rfl,
    show ("Diff_" : String).data = ['D', 'i', 'f', 'f', '_'] from rfl,
    List.cons_append, List.nil_append] at hd
  simp at hd

theorem away_ne_diff (s t : String) : featName "Away_" s ≠ featName "Diff_" t := by
  intro h
  have hd := congrArg String.data h
  rw [featName_data, featName_data] at hd
  simp only [show ("Away_" : String).data = ['A', 'w', 'a', 'y', '_'] from rfl,
    show ("Diff_" : String).data = ['D', 'i', 'f', 'f', '_'] from rfl,
    List.cons_append, List.nil_append] at hd
  simp at hd

theorem dictGet?_popFold_ne (FN : List String) (pre : String)
    (stats : List (String × Val)) (k : String)
    (h : ∀ p ∈ stats, featName pre p.1 ≠ k) :
    ∀ d0, dictGet? (popFold FN pre stats d0) k = dictGet? d0 k := by
  induction stats with
  | nil => intro d0; rfl
  | cons p t ih =>
    intro d0
    have hstep : popFold FN pre (p :: t) d0
        = popFold FN pre t
            (if FN.contains (featName pre p.1)
             then dictSet d0 (featName pre p.1) p.2 else d0) := by
      simp [popFold, List.foldl_cons]
    rw [hstep]
    rw [ih (fun q hq => h q (by simp [hq]))]
    by_cases hc : FN.contains (featName pre p.1)
    · rw [if_pos hc]
      exact dictGet?_dictSet_ne d0 (featName pre p.1) k p.2 (fun he => h p (by simp) he.symm)
    · rw [if_neg hc]

theorem dictGet?_popFold_eq (FN : List String) (pre : String)
    (stats : List (String × Val)) (s : String)
    (hnd : (stats.map Prod.fst).Nodup) (hs : s ∈ stats.map Prod.fst)
    (hf : FN.contains (featName pre s) = true) :
    ∀ d0, dictGet? (popFold FN pre stats d0) (featName pre s) = dictGet? stats s := by
  induction stats with
  | nil => simp at hs
  | cons p t ih =>
    intro d0
    have h0 : p.1 ∉ t.map Prod.fst ∧ (t.map Prod.fst).Nodup :=
      List.nodup_cons.mp (by simpa using hnd)
    have hstep : popFold FN pre (p :: t) d0
        = popFold FN pre t
            (if FN.contains (featName pre p.1)
             then dictSet d0 (featName pre p.1) p.2 else d0) := by
      simp [popFold, List.foldl_cons]
    rw [hstep]
    rcases (by simpa using hs : s = p.1 ∨ s ∈ t.map Prod.fst) with heq | hst
    · have hnone : ∀ q ∈ t, featName pre q.1 ≠ featName pre s := by
        intro q hq he
        have h1 : q.1 = s := featName_inj pre he
        exact h0.1 (heq ▸ (h1 ▸ List.mem_map_of_mem Prod.fst hq))
      rw [dictGet?_popFold_ne FN pre t (featName pre s) hnone]
      have hcon : FN.contains (featName pre p.1) = true := by rw [← heq]; exact hf
      rw [if_pos hcon]
      have hset : dictGet? (dictSet d0 (featName pre p.1) p.2) (featName pre s) = some p.2 := by
        rw [heq, dictGet?_dictSet_self]
      rw [hset]
      have hps : (p.1 == s) = true := by simp [heq]
      simp [dictGet?, List.find?, hps]
    · have hps : p.1 ≠ s := fun he => h0.1 (he ▸ hst)
      rw [ih h0.2 hst]
      have hb : (p.1 == s) = false := by simpa using hps
      simp [dictGet?, List.find?, hb]

theorem dictGet?_diffus_ne (FN : List String) (hs as2 : List (String × Val))
    (L : List String) (k : String) (h : ∀ suf ∈ L, featName "Diff_" suf ≠ k) :
    ∀ d0, dictGet?
        (L.foldl
          (fun d suf => if FN.contains (featName "Diff_" suf)
                        then dictSet d (featName "Diff_" suf) (diffVal hs as2 suf)
                        else d) d0) k
      = dictGet? d0 k := by
  induction L with
  | nil => intro d0; rfl
  | cons suf t ih =>
    intro d0
    rw [List.foldl_cons]
    rw [ih (fun q hq => h q (by simp [hq]))]
    by_cases hc : FN.contains (featName "Diff_" suf)
    · rw [if_pos hc]
      exact dictGet?_dictSet_ne d0 _ k _ (fun he => h suf (by simp) he.symm)
    · rw [if_neg hc]

theorem dictGet?_diffus_eq (FN : List String) (hs as2 : List (String × Val))
    (L : List String) (s : String) (hnd : L.Nodup) (hsm : s ∈ L)
    (hf : FN.contains (featName "Diff_" s) = true) :
    ∀ d0, dictGet?
        (L.foldl
          (fun d suf => if FN.contains (featName "Diff_" suf)
                        then dictSet d (featName "Diff_" suf) (diffVal hs as2 suf)
                        else d) d0) (featName "Diff_" s)
      = some (diffVal hs as2 s) := by
  induction L with
  | nil => simp at hsm
  | cons suf t ih =>
    intro d0
    have h0 : suf ∉ t ∧ t.Nodup := List.nodup_cons.mp hnd
    rw [List.foldl_cons]
    rcases (by simpa using hsm : s = suf ∨ s ∈ t) with rfl | hst
    · have hnone : ∀ q ∈ t, featName "Diff_" q ≠ featName "Diff_" s := by
        intro q hq he
        exact h0.1 ((featName_inj "Diff_" he) ▸ hq)
      rw [dictGet?_diffus_ne FN hs as2 t _ hnone]
      rw [if_pos hf, dictGet?_dictSet_self]
    · exact ih h0.2 hst _

theorem dictGet?_diffFold_ne (FN : List String) (hs as2 : List (String × Val))
    (k : String) (h : ∀ suf ∈ hs.map Prod.fst, featName "Diff_" suf ≠ k) (d0 : List (String × Val)) :
    dictGet? (diffFold FN hs as2 d0) k = dictGet? d0 k :=
  dictGet?_diffus_ne FN hs as2 (hs.map Prod.fst) k h d0

theorem dictGet?_mapRow (L : List String) (g : String → Val) (f : String) :
    dictGet? (L.map (fun c => (c, g c))) f = if f ∈ L then some (g f) else none := by
  induction L with
  | nil => simp [dictGet?]
  | cons c t ih =>
    by_cases hc : c == f
    · have hcf : c = f := by simpa using hc
      simp [dictGet?, List.find?, hc, hcf]
    · have hcf : ¬ c = f := by simpa using hc
      have hskip : dictGet? (((c, g c)) :: t.map (fun c => (c, g c))) f
          = dictGet? (t.map (fun c => (c, g c))) f := by
        simp [dictGet?, List.find?, hc]
      rw [List.map_cons, hskip, ih]
      have hmem : (f ∈ c :: t) ↔ (f ∈ t) := by
        constructor
        · intro h2
          rcases List.mem_cons.mp h2 with he | h3
          · exact absurd he.symm hcf
          · exact h3
        · exact fun h2 => List.mem_cons_of_mem c h2
      by_cases hft : f ∈ t
      · rw [if_pos hft, if_pos (hmem.mpr hft)]
      · rw [if_neg hft, if_neg (fun h2 => hft (hmem.mp h2))]

theorem dictGet?_not_mem {α : Type} (d : List (String × α)) (k : String)
    (h : k ∉ d.map Prod.fst) : dictGet? d k = none := by
  induction d with
  | nil => rfl
  | cons p t ih =>
    have hp : (p.1 == k) = false := by
      simp only [List.map_cons, List.mem_cons] at h
      simpa using fun he => h (Or.inl he.symm)
    have ht : k ∉ t.map Prod.fst := fun hm => h (by simp [hm])
    simpa [dictGet?, List.find?, hp] using ih ht

theorem dictGetV_mapRow_mem (L : List String) (g : String → Val) (f : String)
    (hf : f ∈ L) : dictGetV (L.map (fun c => (c, g c))) f = g f := by
  simp [dictGetV, dictGet?_mapRow, hf]

theorem prepare_some (FN : List String) (hs as2 : List (String × Val)) :
    prepare_live_features_from_stats FN (some hs) (some as2)
      = buildLiveFeatureRow FN hs as2 := rfl

/-- Claim C5: for every home/away pair of rolling-stats dicts (dicts have
unique keys), the built live feature row has exactly one value per schema
feature in schema order; every schema feature `Home_<stat>_PreGame` carries
the home dict's `<stat>` value and `Away_<stat>_PreGame` the away dict's;
every `Diff_<stat>_PreGame` carries home minus away when both are known and
NaN otherwise; and every schema feature not resolvable from the two dicts is
present with the NaN sentinel rather than omitted. -/
theorem c5_live_feature_vector (FN : List String) (hs as2 : List (String × Val))
    (hnh : (hs.map Prod.fst).Nodup) (hna : (as2.map Prod.fst).Nodup) :
    ((prepare_live_features_from_stats FN (some hs) (some as2)).map Prod.fst = FN) ∧
    (∀ s ∈ hs.map Prod.fst, featName "Home_" s ∈ FN →
      dictGetV (prepare_live_features_from_stats FN (some hs) (some as2))
          (featName "Home_" s) = dictGetV hs s) ∧
    (∀ s ∈ as2.map Prod.fst, featName "Away_" s ∈ FN →
      dictGetV (prepare_live_features_from_stats FN (some hs) (some as2))
          (featName "Away_" s) = dictGetV as2 s) ∧
    (∀ s : String, featName "Diff_" s ∈ FN →
      dictGetV (prepare_live_features_from_stats FN (some hs) (some as2))
          (featName "Diff_" s)
        = (match dictGetV hs s, dictGetV as2 s with
           | some hv, some av => some (hv - av)
           | _, _ => none)) ∧
    (∀ f ∈ FN,
      (∀ s ∈ hs.map Prod.fst, f ≠ featName "Home_" s ∧ f ≠ featName "Diff_" s) →
      (∀ s ∈ as2.map Prod.fst, f ≠ featName "Away_" s) →
      dictGetV (prepare_live_features_from_stats FN (some hs) (some as2)) f = none) := by
  rw [prepare_some]
  simp only [buildLiveFeatureRow]
  refine ⟨?_, ?_, ?_, ?_, ?_⟩
  · have hcomp : (Prod.fst ∘ fun c : String =>
        (c, dictGetV (diffFold FN hs as2
          (popFold FN "Away_" as2 (popFold FN "Home_" hs []))) c)) = id := rfl
    rw [List.map_map, hcomp, List.map_id]
  · intro s hsm hfn
    rw [dictGetV_mapRow_mem _ _ _ hfn]
    have h3 := dictGet?_diffFold_ne FN hs as2 (featName "Home_" s)
      (fun suf _ => (home_ne_diff s suf).symm)
      (popFold FN "Away_" as2 (popFold FN "Home_" hs []))
    have h2 := dictGet?_popFold_ne FN "Away_" as2 (featName "Home_" s)
      (fun q _ => (home_ne_away s q.1).symm) (popFold FN "Home_" hs [])
    have h1 := dictGet?_popFold_eq FN "Home_" hs s hnh hsm
      (by simpa using hfn) []
    simp only [dictGetV, h3, h2, h1]
  · intro s hsm hfn
    rw [dictGetV_mapRow_mem _ _ _ hfn]
    have h3 := dictGet?_diffFold_ne FN hs as2 (featName "Away_" s)
      (fun suf _ => (away_ne_diff s suf).symm)
      (popFold FN "Away_" as2 (popFold FN "Home_" hs []))
    have h2 := dictGet?_popFold_eq FN "Away_" as2 s hna hsm
      (by simpa using hfn) (popFold FN "Home_" hs [])
    simp only [dictGetV, h3, h2]
  · intro s hfn
    rw [dictGetV_mapRow_mem _ _ _ hfn]
    by_cases hm : s ∈ hs.map Prod.fst
    · have h3 := dictGet?_diffus_eq FN hs as2 (hs.map Prod.fst) s hnh hm
        (by simpa using hfn)
        (popFold FN "Away_" as2 (popFold FN "Home_" hs []))
      simp only [dictGetV, diffFold] at h3 ⊢
      rw [h3]
      simp [diffVal, dictGetV]
    · have h3 := dictGet?_diffFold_ne FN hs as2 (featName "Diff_" s)
        (fun suf hsuf he => hm ((featName_inj "Diff_" he) ▸ hsuf))
        (popFold FN "Away_" as2 (popFold FN "Home_" hs []))
      have h2 := dictGet?_popFold_ne FN "Away_" as2 (featName "Diff_" s)
        (fun q _ => away_ne_diff q.1 s) (popFold FN "Home_" hs [])
      have h1 := dictGet?_popFold_ne FN "Home_" hs (featName "Diff_" s)
        (fun q _ => home_ne_diff q.1 s) []
      have hhs : dictGet? hs s = none := dictGet?_not_mem hs s hm
      simp only [dictGetV, h3, h2, h1, hhs]
      rfl
  · intro f hfn hnh2 hna2
    rw [dictGetV_mapRow_mem _ _ _ hfn]
    have h3 := dictGet?_diffFold_ne FN hs as2 f
      (fun suf hsuf => Ne.symm (hnh2 _ (by
        obtain ⟨p, hp, rfl⟩ := List.mem_map.mp hsuf
        exact List.mem_map_of_mem Prod.fst hp)).2)
      (popFold FN "Away_" as2 (popFold FN "Home_" hs []))
    have h2 := dictGet?_popFold_ne FN "Away_" as2 f
      (fun q hq => Ne.symm (hna2 q.1 (List.mem_map_of_mem Prod.fst hq)))
      (popFold FN "Home_" hs [])
    have h1 := dictGet?_popFold_ne FN "Home_" hs f
      (fun q hq => Ne.symm (hnh2 q.1 (List.mem_map_of_mem Prod.fst hq)).1) []
    simp only [dictGetV, h3, h2, h1]
    rfl

/-- Claim C5 witness: the theorem applied to the spec's example — schema
[Home, Away, Diff] of PTS_Roll10 with home PTS 110 and away PTS 100. -/
theorem c5_witness :
    ((prepare_live_features_from_stats exampleSchema (some exampleHomeStats)
        (some exampleAwayStats)).map Prod.fst = exampleSchema) ∧
    dictGetV (prepare_live_features_from_stats exampleSchema (some exampleHomeStats)
        (some exampleAwayStats)) (featName "Home_" "PTS_Roll10")
      = dictGetV exampleHomeStats "PTS_Roll10" :=
  ⟨(c5_live_feature_vector exampleSchema exampleHomeStats exampleAwayStats
      (by decide) (by decide)).1,
   (c5_live_feature_vector exampleSchema exampleHomeStats exampleAwayStats
      (by decide) (by decide)).2.1 "PTS_Roll10" (by decide) (by decide)⟩

/-- Claim C6: for every successful dataset load, the produced feature schema
is a subsequence of the nominal `FEATURE_COLS` (it only shrinks — dropping
CSV-absent or all-NaN columns — never reorders or grows), its length is at
most the nominal schema's, and the returned matrix X carries exactly that
shrunk schema as its columns, every row aligned to it. -/
theorem c6_schema_shrinks (df : DataFrame) (scale : String → ℚ → ℚ)
    (schema : List String) (X : List String × List (List ℚ)) (yh ya : List ℚ)
    (h : load_and_prep_historical_data df scale = some (schema, X, yh, ya)) :
    schema.Sublist FEATURE_COLS ∧ schema.length ≤ FEATURE_COLS.length ∧
    X.1 = schema ∧ ∀ r ∈ X.2, r.length = schema.length := by
  simp only [load_and_prep_historical_data] at h
  split_ifs at h
  simp only [Option.some.injEq, Prod.mk.injEq] at h
  obtain ⟨h1, h2, h3, h4⟩ := h
  have hsub : schema.Sublist FEATURE_COLS := by
    rw [← h1]
    exact List.Sublist.trans (List.filter_sublist _) (List.filter_sublist _)
  refine ⟨hsub, hsub.length_le, ?_, ?_⟩
  · rw [← h2]
    exact h1
  · intro r hr
    rw [← h2] at hr
    obtain ⟨r1, hr1, rfl⟩ := List.mem_map.mp hr
    obtain ⟨r2, hr2, rfl⟩ := List.mem_map.mp hr1
    rw [← h1]
    simp [List.length_zipWith]

/-- Claim C6 witness: the theorem applied to a concrete one-row CSV holding
one schema column and the two targets. -/
theorem c6_witness :
    exampleLoadedSchema.Sublist FEATURE_COLS ∧
    exampleLoadedSchema.length ≤ FEATURE_COLS.length ∧
    exampleLoadedX.1 = exampleLoadedSchema ∧
    ∀ r ∈ exampleLoadedX.2, r.length = exampleLoadedSchema.length :=
  c6_schema_shrinks exampleCSV (fun _ x => x) exampleLoadedSchema exampleLoadedX
    [101] [99] (by rfl)
